import Mathlib

/-!
Verification of the README-generator service (`app/api/generate-readme/route.ts`).

The development shallowly embeds the route's pure core:
* the recursive directory walker `listFiles`,
* the context-extraction phase of the `POST` handler (file listing, key-file
  loop, character budget accounting),
* the control flow of the `POST` handler itself (input validation, temporary
  directory lifecycle, clone / generation outcomes, `finally` cleanup).

Filesystem trees are explicit inductive values; effectful steps of the handler
(JSON body parsing, `mkdtemp`, `git clone`, the generative API call, `fs.rm`)
are resolved by an explicit oracle record so that every exit path of the
handler is a total function of the oracle.

JS strings are modelled by Lean `String`; the repository contents relevant to
the claims are ASCII, where JS `.length` (UTF-16 units) agrees with
`String.length`.
-/

set_option maxRecDepth 100000

namespace GenReadme

/-! ### Constants (route.ts lines 22-25) -/

def MAX_FILE_READ_SIZE_BYTES : Nat := 50 * 1024

def MAX_TOTAL_CONTEXT_LENGTH : Nat := 15000

def MAX_FILES_TO_LIST : Nat := 100

def MAX_FILE_CONTENT_TO_INCLUDE : Nat := 10

/-! ### Filesystem model

A directory entry is either a non-directory dirent (anything for which
`dirent.isDirectory()` is false: regular file, symlink, ...) or a directory.
For a non-directory entry we record the outcome of the later `fs.stat`
(`none` models a thrown stat) and of `fs.readFile` (`none` models a thrown
read); `Stat.isFile` is `stats.isFile()` and `Stat.size` is `stats.size`. -/

structure Stat where
  isFile : Bool
  size : Nat
deriving DecidableEq, Repr

/-- A directory's dirent sequence as returned by `fs.readdir` (in readdir
order), in first-child/next-sibling form: `file name stat content rest` is a
non-directory dirent followed by the remaining dirents `rest`;
`dir name children rest` is a subdirectory with its own dirent sequence
`children`.  (Plain structural recursion over this shape keeps every function
below kernel-computable.) -/
inductive Dirents where
  | nil
  | file (name : String) (stat : Option Stat) (content : Option String) (rest : Dirents)
  | dir (name : String) (children : Dirents) (rest : Dirents)
deriving Repr

/-- What the walk records for each listed file: its path relative to the root
plus the stat/read outcomes of the underlying file (the later `fs.stat` /
`fs.readFile` on `path.join(tempDir, rel)` resolve to exactly this entry). -/
structure FileInfo where
  path : String
  stat : Option Stat
  content : Option String
deriving DecidableEq, Repr

/-- route.ts line 36: names skipped by the walker (checked before the
`isDirectory` test, so it applies to files and directories alike). -/
def excludedName (name : String) : Bool :=
  name == ".git" || name == "node_modules"

/-- Computes `path.relative(rootDir, path.resolve(dir, name))` for a walk that descended
through the components accumulated in `pre`. -/
def joinRel (pre name : String) : String :=
  if pre == "" then name else pre ++ "/" ++ name

/-- The `for` loop body of `listFiles` (route.ts lines 33-47).  The recursive
call on a subdirectory inlines the entry guard of `listFiles`
(route.ts lines 29-31); after each push or recursion the loop breaks once the
cap is reached. -/
def listLoop : Dirents → String → List FileInfo → Nat → List FileInfo
  | .nil, _, acc, _ => acc
  | .file name st ct rest, pre, acc, maxFiles =>
    if excludedName name then listLoop rest pre acc maxFiles
    else if (acc ++ [(⟨joinRel pre name, st, ct⟩ : FileInfo)]).length ≥ maxFiles then
      acc ++ [(⟨joinRel pre name, st, ct⟩ : FileInfo)]
    else listLoop rest pre (acc ++ [(⟨joinRel pre name, st, ct⟩ : FileInfo)]) maxFiles
  | .dir name children rest, pre, acc, maxFiles =>
    if excludedName name then listLoop rest pre acc maxFiles
    else if (if acc.length ≥ maxFiles then acc
        else listLoop children (joinRel pre name) acc maxFiles).length ≥ maxFiles then
      (if acc.length ≥ maxFiles then acc
       else listLoop children (joinRel pre name) acc maxFiles)
    else listLoop rest pre
      (if acc.length ≥ maxFiles then acc
       else listLoop children (joinRel pre name) acc maxFiles) maxFiles

/-- Models `listFiles(dir, fileList, rootDir, maxFiles)` (route.ts lines 28-49). -/
def listFiles (entries : Dirents) (pre : String) (acc : List FileInfo)
    (maxFiles : Nat) : List FileInfo :=
  if acc.length ≥ maxFiles then acc else listLoop entries pre acc maxFiles

/-- Uncapped depth-first enumeration of the files the walker can see (every
entry whose own name, and all of whose ancestor directory names, differ from
`.git` and `node_modules`), in walk order. -/
def dfsFiles : Dirents → String → List FileInfo
  | .nil, _ => []
  | .file name st ct rest, pre =>
    if excludedName name then dfsFiles rest pre
    else ⟨joinRel pre name, st, ct⟩ :: dfsFiles rest pre
  | .dir name children rest, pre =>
    if excludedName name then dfsFiles rest pre
    else dfsFiles children (joinRel pre name) ++ dfsFiles rest pre

/-- Modelled from the spec: the claim's notion of a non-excluded file — every
file of the tree except those lying inside a version-control-metadata
directory (`.git`) or a dependency-cache directory (`node_modules`).  A plain
file so named is NOT excluded here (it does not lie inside such a directory). -/
def specFiles : Dirents → String → List String
  | .nil, _ => []
  | .file name _ _ rest, pre => joinRel pre name :: specFiles rest pre
  | .dir name children rest, pre =>
    if excludedName name then specFiles rest pre
    else specFiles children (joinRel pre name) ++ specFiles rest pre

/-! ### Context extraction (route.ts lines 85-146)

JS string primitives, modelled over the character list (JS operates on UTF-16
code units; all strings of interest are ASCII where characters and code units
coincide). -/

/-- JavaScript `s.toLowerCase()` (ASCII range). -/
def strToLower (s : String) : String := ⟨s.data.map Char.toLower⟩

/-- JavaScript `s.endsWith(suff)`. -/
def strEndsWith (s suff : String) : Bool := List.isSuffixOf suff.data s.data

/-- JavaScript `s.startsWith(p)`. -/
def strStartsWith (s p : String) : Bool := List.isPrefixOf p.data s.data

/-- JavaScript `s.slice(0, e)`: a negative end counts from the end of the
string (clamped at 0); an end beyond the length is clamped to the length. -/
def jsSlice (s : String) (e : Int) : String :=
  let e' : Int := if e < 0 then max ((s.length : Int) + e) 0 else min e (s.length : Int)
  ⟨s.data.take e'.toNat⟩

/-- Accumulator of the extraction: the context string built so far and the
running counter `totalContextLength` (route.ts lines 85-86).  The counter is
NOT kept equal to `ctx.length`: several appends below bypass it. -/
structure ExtractState where
  ctx : String
  counted : Nat
deriving DecidableEq, Repr

/-- Body of the `forEach` over the (sliced) file list (route.ts lines 91-97):
a `- path` line is appended only if the counter stays under budget. -/
def addLine (st : ExtractState) (f : FileInfo) : ExtractState :=
  if st.counted + ("- " ++ f.path ++ "\n").length < MAX_TOTAL_CONTEXT_LENGTH then
    ⟨st.ctx ++ ("- " ++ f.path ++ "\n"), st.counted + ("- " ++ f.path ++ "\n").length⟩
  else st

/-- The fixed priority list of key files (route.ts lines 104-111). -/
def keyFiles : List String :=
  ["package.json", "composer.json", "requirements.txt", "Pipfile", "Gemfile",
   "pom.xml", "build.gradle", "Makefile", "Dockerfile", "docker-compose.yml",
   "README", "README.md", "README.rst"]

/-- route.ts line 119: the first listed file whose path ends (case-insensitively)
with the key name. -/
def findKeyFile (files : List FileInfo) (key : String) : Option FileInfo :=
  files.find? fun f => strEndsWith (strToLower f.path) (strToLower key)

/-- The wrapper around an included key file's sliced content
(route.ts line 127). -/
def wrapSection (path sliced : String) : String :=
  "\n--- File: " ++ path ++ " ---\n" ++ sliced ++ "\n---\n"

/-- Per-key outcome of the key-file loop, in the order of `keyFiles`:
* `noMatch` — no listed path matched (route.ts line 121 false);
* `statSkip` — matched, but not a regular file or over the per-file size cap
  (route.ts line 125 false), silently skipped;
* `readErr` — `fs.stat` or `fs.readFile` threw; caught and logged
  (route.ts lines 138-140), loop continues;
* `included` — section appended, `filesReadCount` incremented;
* `budgetBreak` — the section did not fit the global budget: `break`
  (route.ts line 135);
* `capBreak` — `filesReadCount >= MAX_FILE_CONTENT_TO_INCLUDE`: `break`
  (route.ts line 116);
* `notReached` — a break happened at an earlier key. -/
inductive KeyOutcome where
  | noMatch | statSkip | readErr | included | budgetBreak | capBreak | notReached
deriving DecidableEq, Repr

/-- Prepends this key's outcome to the loop result for the remaining keys. -/
def consOutcome (o : KeyOutcome) (r : ExtractState × Nat × List KeyOutcome) :
    ExtractState × Nat × List KeyOutcome :=
  (r.1, r.2.1, o :: r.2.2)

/-- The section appended for an included key file (route.ts line 127),
including the slice of its content to the remaining budget minus a 100-char
reserve. -/
def sectionFor (st : ExtractState) (f : FileInfo) (c : String) : String :=
  wrapSection f.path
    (jsSlice c ((MAX_TOTAL_CONTEXT_LENGTH : Int) - (st.counted : Int) - 100))

/-- The key-file loop (route.ts lines 115-142), returning the final state, the
final `filesReadCount`, and one `KeyOutcome` per key. -/
def keyLoop : List String → List FileInfo → ExtractState → Nat →
    ExtractState × Nat × List KeyOutcome
  | [], _, st, n => (st, n, [])
  | k :: ks, files, st, n =>
    if n ≥ MAX_FILE_CONTENT_TO_INCLUDE then
      (st, n, KeyOutcome.capBreak :: ks.map fun _ => KeyOutcome.notReached)
    else
      match findKeyFile files k with
      | none => consOutcome KeyOutcome.noMatch (keyLoop ks files st n)
      | some f =>
        match f.stat with
        | none => consOutcome KeyOutcome.readErr (keyLoop ks files st n)
        | some s =>
          if s.isFile = true ∧ s.size ≤ MAX_FILE_READ_SIZE_BYTES then
            match f.content with
            | none => consOutcome KeyOutcome.readErr (keyLoop ks files st n)
            | some c =>
              if st.counted + (sectionFor st f c).length < MAX_TOTAL_CONTEXT_LENGTH then
                consOutcome KeyOutcome.included
                  (keyLoop ks files
                    ⟨st.ctx ++ sectionFor st f c,
                     st.counted + (sectionFor st f c).length⟩ (n + 1))
              else
                (st, n, KeyOutcome.budgetBreak :: ks.map fun _ => KeyOutcome.notReached)
          else consOutcome KeyOutcome.statSkip (keyLoop ks files st n)

/-- route.ts line 85: the initial context / counter value. -/
def headerStr : String := "Repository Structure and Key Files:\n\n"

/-- route.ts line 90: appended to the context WITHOUT updating the counter. -/
def fileListHeaderStr (nfiles : Nat) : String :=
  "File List (" ++ toString (min nfiles MAX_FILES_TO_LIST) ++ " files shown):\n"

/-- Result of the extraction phase: the Extracted Context, the final counter,
the File Listing, the per-key trace, the final `filesReadCount`, and whether
the omitted-files summary line (route.ts lines 98-100) was appended. -/
structure ExtractResult where
  ctx : String
  counted : Nat
  allFiles : List FileInfo
  trace : List KeyOutcome
  filesRead : Nat
  omittedNote : Bool
deriving Repr

/-- Stage 1 of the extraction (route.ts lines 85-97): the header, the
uncounted file-list header line, and the budget-checked `- path` lines. -/
def fileListStage (allFiles : List FileInfo) : ExtractState :=
  (allFiles.take MAX_FILES_TO_LIST).foldl addLine
    ⟨headerStr ++ fileListHeaderStr allFiles.length, headerStr.length⟩

/-- Stage 2 (route.ts lines 98-101): the omitted-files summary line (appended
without budget check or counting when the listing exceeds the cap) and the
blank separator line. -/
def omittedStage (allFiles : List FileInfo) (st : ExtractState) : ExtractState :=
  let ctx2 :=
    if allFiles.length > MAX_FILES_TO_LIST then
      st.ctx ++ "- ... (and " ++ toString (allFiles.length - MAX_FILES_TO_LIST) ++
        " more files)\n"
    else st.ctx
  ⟨ctx2 ++ "\n" ++ "Key File Contents:\n", st.counted⟩

/-- The extraction phase applied to an already-computed file listing. -/
def extractCore (allFiles : List FileInfo) : ExtractResult :=
  let st1 := fileListStage allFiles
  let r := keyLoop keyFiles allFiles (omittedStage allFiles st1) 0
  let ctxF :=
    if r.2.1 = 0 then r.1.ctx ++ "(No key files identified or read)\n" else r.1.ctx
  ⟨ctxF, r.1.counted, allFiles, r.2.2, r.2.1,
    decide (allFiles.length > MAX_FILES_TO_LIST)⟩

/-- The extraction phase of the `POST` handler (route.ts lines 85-146),
applied to the cloned tree. -/
def extract (tree : Dirents) : ExtractResult :=
  extractCore (listFiles tree "" [] MAX_FILES_TO_LIST)

/-! ### The POST handler (route.ts lines 52-212)

Control flow is modelled as a total function of an `Oracle` that resolves
every effectful step (body parsing, `mkdtemp`, `git clone`, the generative
call, `fs.rm`).  A `JsError` models a thrown JS error value with its `code`
and `message` properties. -/

/-- A JSON/JS value, as returned by `request.json()`. -/
inductive JsValue where
  | undefined
  | null
  | bool (b : Bool)
  | num (n : Int)
  | str (s : String)
  | obj (props : List (String × JsValue))
deriving Repr

/-- JS truthiness (`!v` is `!jsTruthy v`).  Numbers are modelled by `Int`
(no NaN); a string is falsy exactly when empty. -/
def jsTruthy : JsValue → Bool
  | .undefined => false
  | .null => false
  | .bool b => b
  | .num n => n != 0
  | .str s => s != ""
  | .obj _ => true

/-- Tests `typeof v === "string"`. -/
def isJsString : JsValue → Bool
  | .str _ => true
  | _ => false

/-- A thrown JS error value: its `code` and `message` properties
(`none` models an absent property). -/
structure JsError where
  code : Option String
  message : Option String
deriving DecidableEq, Repr

/-- Property access `body.repoUrl` as performed by the destructuring
`const { repoUrl } = body` (route.ts line 61): throws a `TypeError` when the
body is `null`/`undefined`; yields `undefined` on other non-objects; looks the
key up on objects. -/
def getProp (v : JsValue) (key : String) : Except JsError JsValue :=
  match v with
  | .null => .error ⟨none, some "Cannot destructure property"⟩
  | .undefined => .error ⟨none, some "Cannot destructure property"⟩
  | .obj props => .ok ((props.lookup key).getD .undefined)
  | _ => .ok .undefined

/-- The rejection condition of route.ts line 63:
`!repoUrl || typeof repoUrl !== 'string' || (!repoUrl.startsWith('http://') && !repoUrl.startsWith('https://'))`.
`startsWith` is only reached on strings (the `||` short-circuits). -/
def invalidRepoUrl (v : JsValue) : Bool :=
  !jsTruthy v || !isJsString v ||
    (match v with
     | .str s => !strStartsWith s "http://" && !strStartsWith s "https://"
     | _ => true)

/-- JavaScript `s.includes(sub)` on the underlying character lists. -/
def charsHavePre : List Char → List Char → Bool
  | _, [] => true
  | [], _ :: _ => false
  | a :: as, b :: bs => a == b && charsHavePre as bs

def jsIncludes (s sub : String) : Bool :=
  go s.data
where
  go : List Char → Bool
    | [] => charsHavePre [] sub.data
    | c :: cs => charsHavePre (c :: cs) sub.data || go cs

/-- One candidate of a generation response; `finishReason` is its
`finishReason` property. -/
structure Candidate where
  finishReason : Option String
deriving DecidableEq, Repr

/-- Models `generationResult.response`, as inspected by route.ts lines 181-188.
`candidates` is `none` when the property is absent/null.  `promptFeedback` is
modelled by its `JSON.stringify` serialization (`none` when absent, making
`JSON.stringify` yield `undefined`).  `text` is the value `response.text()`
returns; `response.text` itself is a method of the SDK response object, hence
always truthy when the response exists, so the `&& response.text` conjunct of
line 181 adds nothing. -/
structure RespObj where
  candidates : Option (List Candidate)
  promptFeedback : Option String
  text : String
deriving DecidableEq, Repr

/-- Wraps `generationResult.response`, which may itself be absent. -/
abbrev GeminiResponse := Option RespObj

/-- The success condition of route.ts line 181. -/
def respOk : GeminiResponse → Bool
  | none => false
  | some r =>
    match r.candidates with
    | none => false
    | some cs => cs.length > 0

/-- Reads `response?.candidates?.[0]?.finishReason` (route.ts line 187). -/
def finishReason0 (resp : GeminiResponse) : Option String :=
  (resp.bind RespObj.candidates).bind fun cs => cs.head?.bind Candidate.finishReason

/-- Renders `${x || 'Unknown'}` for an optional string (an empty string is falsy). -/
def jsOrUnknown : Option String → String
  | none => "Unknown"
  | some s => if s == "" then "Unknown" else s

/-- Renders `${JSON.stringify(f)}`: the text `undefined` when the value is absent. -/
def jsonStringifyOpt : Option String → String
  | none => "undefined"
  | some s => s

/-- The error message built on route.ts line 188. -/
def geminiFailMsg (resp : GeminiResponse) : String :=
  "Failed to generate content. Reason: " ++ jsOrUnknown (finishReason0 resp) ++
    ". Feedback: " ++ jsonStringifyOpt (resp.bind RespObj.promptFeedback)

/-- The message mapping of the catch block (route.ts lines 191-202). -/
def errorMessageFor (e : JsError) : String :=
  if e.code == some "ENOENT" ||
      (match e.message with | some m => jsIncludes m "Authentication failed" | none => false) then
    "Failed to clone repository. Check URL and ensure it's public."
  else if (match e.message with | some m => jsIncludes m "mkdtemp" | none => false) then
    "Failed to create temporary directory on server."
  else
    match e.message with
    | some m => if m == "" then "An internal server error occurred." else m
    | none => "An internal server error occurred."

/-- A `NextResponse.json` result: HTTP status plus either a `readme` or an
`error` field. -/
inductive JsonOut where
  | readme (text : String)
  | error (msg : String)
deriving DecidableEq, Repr

structure PostResponse where
  status : Nat
  body : JsonOut
deriving DecidableEq, Repr

/-- Oracle resolving the effectful steps of one request. -/
structure Oracle where
  /-- Value of `process.env.GOOGLE_API_KEY` (route.ts line 9); `some ""` is falsy. -/
  apiKey : Option String
  /-- Outcome of `await request.json()` (route.ts line 60). -/
  bodyResult : Except JsError JsValue
  /-- Outcome of `await fs.mkdtemp(...)` (route.ts line 68). -/
  mkdtempResult : Except JsError String
  /-- Outcome of `await git.clone(...)` (route.ts line 80). -/
  cloneResult : Except JsError Unit
  /-- The cloned tree read by the extraction phase. -/
  tree : Dirents
  /-- A thrown error during the `listFiles` walk (`fs.readdir` failure),
  which would propagate to the outer catch; `none` = the walk succeeds. -/
  walkError : Option JsError
  /-- Outcome of `await model.generateContent(prompt)` (route.ts line 176): a thrown
  error, or `generationResult.response`. -/
  geminiResult : Except JsError GeminiResponse
  /-- Whether `fs.rm` of the temp directory fails (route.ts line 207). -/
  rmFails : Bool

/-- Holds iff `genAI` is non-null, i.e. the key is truthy (route.ts line 14). -/
def apiKeyOk (o : Oracle) : Bool :=
  match o.apiKey with
  | none => false
  | some s => s != ""

/-- State accumulated inside the `try` block: the `tempDir` variable
(route.ts line 57) and whether a clone was attempted, plus the extracted
context length when extraction ran. -/
structure TryState where
  tempDir : Option String
  cloneAttempted : Bool
  extractedLen : Option Nat
deriving DecidableEq, Repr

def TryState.init : TryState := ⟨none, false, none⟩

/-- The `try` block of the handler (route.ts lines 59-189): either a returned
response (`.ok`) or a thrown error reaching the catch block (`.error`),
together with the final `TryState`. -/
def tryBlock (o : Oracle) : Except JsError PostResponse × TryState :=
  match o.bodyResult with
  | .error e => (.error e, .init)
  | .ok body =>
    match getProp body "repoUrl" with
    | .error e => (.error e, .init)
    | .ok repoUrl =>
      if invalidRepoUrl repoUrl then
        (.ok ⟨400, .error "Invalid repository URL provided."⟩, .init)
      else
        match o.mkdtempResult with
        | .error e => (.error e, .init)
        | .ok dir =>
          match o.cloneResult with
          | .error e => (.error e, ⟨some dir, true, none⟩)
          | .ok () =>
            match o.walkError with
            | some e => (.error e, ⟨some dir, true, none⟩)
            | none =>
              let ctxLen := (extract o.tree).ctx.length
              let st : TryState := ⟨some dir, true, some ctxLen⟩
              match o.geminiResult with
              | .error e => (.error e, st)
              | .ok resp =>
                if respOk resp then
                  (.ok ⟨200, .readme ((resp.map RespObj.text).getD "")⟩, st)
                else
                  (.ok ⟨500, .error (geminiFailMsg resp)⟩, st)

/-- Observable request-level effects, including the `finally` cleanup. -/
structure WorldLog where
  tempDirCreated : Bool
  cloneAttempted : Bool
  rmCalled : Bool
  tempDirLeftBehind : Bool
  extractedLen : Option Nat
deriving DecidableEq, Repr

def WorldLog.none : WorldLog := ⟨false, false, false, false, Option.none⟩

/-- The `POST` handler (route.ts lines 52-212): the `genAI` guard, the
`try`/`catch`, and the `finally` cleanup (`fs.rm` with
`{recursive, force}`, its own failure caught and only logged,
route.ts lines 203-211). -/
def POST (o : Oracle) : PostResponse × WorldLog :=
  if !apiKeyOk o then
    (⟨500, .error "API Key not configured."⟩, WorldLog.none)
  else
    let (r, s) := tryBlock o
    let resp : PostResponse :=
      match r with
      | .ok resp => resp
      | .error e => ⟨500, .error (errorMessageFor e)⟩
    match s.tempDir with
    | Option.none => (resp, ⟨false, s.cloneAttempted, false, false, s.extractedLen⟩)
    | some _ => (resp, ⟨true, s.cloneAttempted, true, o.rmFails, s.extractedLen⟩)

/-! ### Concrete inputs used by counterexamples and witnesses -/

/-- A single file at the repository root whose name is 14888 `a`s followed by
`package.json` (14900 characters): its listing line drives the counted total
to 14940, and the uncounted header/summary lines then push the context past
the budget. -/
def cex1Name : String := String.mk (List.replicate 14888 'a') ++ "package.json"

def cex1File : FileInfo := ⟨cex1Name, some ⟨true, 1⟩, some "x"⟩

def cex1Tree : Dirents := .file cex1Name (some ⟨true, 1⟩) (some "x") .nil

/-- A flat tree of identical small regular files with the given names. -/
def mkFiles (names : List String) : Dirents :=
  names.foldr (fun n d => Dirents.file n (some ⟨true, 1⟩) (some "") d) .nil

/-- 101 files `f0` ... `f100`: one more than the listing cap. -/
def tree101 : Dirents := mkFiles ((List.range 101).map fun i => "f" ++ toString i)

/-- A repository whose only key file is a `Makefile` (priority index 7). -/
def wtreeMakefile : Dirents := .file "Makefile" (some ⟨true, 1⟩) (some "x") .nil

/-- A REGULAR FILE named `.git` next to an ordinary file: the walker drops it
even though it lies inside no version-control directory. -/
def cex5Tree : Dirents :=
  .file ".git" (some ⟨true, 1⟩) (some "") (.file "a.txt" (some ⟨true, 1⟩) (some "") .nil)

/-- A mixed tree: a subdirectory, a `node_modules` subtree to skip, a README. -/
def w5Tree : Dirents :=
  .dir "src" (.file "main.js" (some ⟨true, 5⟩) (some "x") .nil)
    (.dir "node_modules" (.file "dep.js" (some ⟨true, 5⟩) (some "y") .nil)
      (.file "README.md" (some ⟨true, 2⟩) (some "hi") .nil))

/-- A matched `package.json` far above the 50 KB per-file cap. -/
def w6File : FileInfo := ⟨"package.json", some ⟨true, 999999⟩, some "BIG"⟩

/-- Body `{ repoUrl: "https://" }`: the bare scheme prefix, not a valid URL. -/
def o7cex : Oracle :=
  ⟨some "k", .ok (.obj [("repoUrl", .str "https://")]), .ok "/tmp/gemini-readme-c7",
   .error ⟨some "ENOENT", some "spawn git ENOENT"⟩, .nil, Option.none, .ok Option.none, false⟩

/-- Body without a `repoUrl` property. -/
def o7w : Oracle :=
  ⟨some "k", .ok (.obj [("other", .num 1)]), .ok "/tmp/gemini-readme-w7", .ok (),
   .nil, Option.none, .ok Option.none, false⟩

/-- A generation response with an empty candidate list and safety feedback. -/
def o8resp : RespObj := ⟨some [], some "safety feedback metadata", ""⟩

def o8w : Oracle :=
  ⟨some "k", .ok (.obj [("repoUrl", .str "https://example.com/repo.git")]),
   .ok "/tmp/gemini-readme-w8", .ok (), .nil, Option.none, .ok (some o8resp), false⟩

/-- No `GOOGLE_API_KEY` in the environment. -/
def o9w : Oracle :=
  ⟨Option.none, .ok (.obj [("repoUrl", .str "https://example.com/repo.git")]),
   .ok "/tmp/gemini-readme-w9", .ok (), .nil, Option.none, .ok Option.none, false⟩

def o10w : Oracle :=
  ⟨some "k", .ok (.obj [("repoUrl", .str "https://")]), .ok "/tmp/gemini-readme-w10",
   .ok (), .nil, Option.none, .ok Option.none, false⟩

/-- Shape invariant of the key-file loop's trace: a (possibly empty) run of
fully-processed keys, optionally ended by a break outcome followed only by
`notReached` entries. -/
inductive TraceOK : List KeyOutcome → Prop where
  | nil : TraceOK []
  | step (o : KeyOutcome) (tr : List KeyOutcome)
      (ho : o = .noMatch ∨ o = .statSkip ∨ o = .readErr ∨ o = .included)
      (h : TraceOK tr) : TraceOK (o :: tr)
  | brk (o : KeyOutcome) (rest : List KeyOutcome)
      (ho : o = .budgetBreak ∨ o = .capBreak)
      (h : ∀ x ∈ rest, x = KeyOutcome.notReached) : TraceOK (o :: rest)

/-! ### Lemmas about the walker -/

theorem listLoop_length_le : ∀ (entries : Dirents) (pre : String) (acc : List FileInfo)
    (maxFiles : Nat), acc.length < maxFiles →
    (listLoop entries pre acc maxFiles).length ≤ maxFiles
  | .nil, _, acc, m, h => by
    simpa [listLoop] using Nat.le_of_lt h
  | .file name st ct rest, pre, acc, m, h => by
    by_cases hx : excludedName name
    · simp only [listLoop, if_pos hx]
      exact listLoop_length_le rest pre acc m h
    · simp only [listLoop, if_neg hx]
      by_cases h2 : (acc ++ [(⟨joinRel pre name, st, ct⟩ : FileInfo)]).length ≥ m
      · rw [if_pos h2]
        simpa using h
      · rw [if_neg h2]
        exact listLoop_length_le rest pre _ m (by omega)
  | .dir name children rest, pre, acc, m, h => by
    by_cases hx : excludedName name
    · simp only [listLoop, if_pos hx]
      exact listLoop_length_le rest pre acc m h
    · have hq : ¬ acc.length ≥ m := by omega
      simp only [listLoop, if_neg hx, if_neg hq]
      by_cases h2 : (listLoop children (joinRel pre name) acc m).length ≥ m
      · rw [if_pos h2]
        exact listLoop_length_le children (joinRel pre name) acc m h
      · rw [if_neg h2]
        exact listLoop_length_le rest pre _ m (by omega)

theorem listFiles_length_le (entries : Dirents) (pre : String) (acc : List FileInfo)
    (maxFiles : Nat) (h : acc.length ≤ maxFiles) :
    (listFiles entries pre acc maxFiles).length ≤ maxFiles := by
  unfold listFiles
  split
  · exact h
  · exact listLoop_length_le entries pre acc maxFiles (by omega)

/-- Below the cap the loop is exactly the uncapped depth-first enumeration. -/
theorem listLoop_eq_dfs : ∀ (entries : Dirents) (pre : String) (acc : List FileInfo)
    (maxFiles : Nat), acc.length + (dfsFiles entries pre).length < maxFiles →
    listLoop entries pre acc maxFiles = acc ++ dfsFiles entries pre
  | .nil, pre, acc, m, _ => by simp [listLoop, dfsFiles]
  | .file name st ct rest, pre, acc, m, h => by
    by_cases hx : excludedName name
    · simp only [listLoop, dfsFiles, if_pos hx]
      exact listLoop_eq_dfs rest pre acc m (by simpa [dfsFiles, hx] using h)
    · have h' : acc.length + (dfsFiles (.file name st ct rest) pre).length < m := h
      simp only [dfsFiles, if_neg hx, List.length_cons] at h'
      simp only [listLoop, dfsFiles, if_neg hx]
      have hlt : ¬ (acc ++ [(⟨joinRel pre name, st, ct⟩ : FileInfo)]).length ≥ m := by
        simp; omega
      rw [if_neg hlt, listLoop_eq_dfs rest pre _ m (by simp; omega)]
      simp
  | .dir name children rest, pre, acc, m, h => by
    by_cases hx : excludedName name
    · simp only [listLoop, dfsFiles, if_pos hx]
      exact listLoop_eq_dfs rest pre acc m (by simpa [dfsFiles, hx] using h)
    · have h' : acc.length + ((dfsFiles children (joinRel pre name)).length +
          (dfsFiles rest pre).length) < m := by
        simpa [dfsFiles, hx] using h
      simp only [listLoop, dfsFiles, if_neg hx]
      have hne : ¬ acc.length ≥ m := by omega
      rw [if_neg hne, listLoop_eq_dfs children (joinRel pre name) acc m (by omega)]
      have hlen : ¬ (acc ++ dfsFiles children (joinRel pre name)).length ≥ m := by
        simp; omega
      rw [if_neg hlen, listLoop_eq_dfs rest pre _ m (by simp; omega)]
      simp

theorem listFiles_eq_dfs (entries : Dirents) (pre : String) (maxFiles : Nat)
    (h : (dfsFiles entries pre).length < maxFiles) :
    listFiles entries pre [] maxFiles = dfsFiles entries pre := by
  unfold listFiles
  split
  · next hc => simp at hc; omega
  · simpa using listLoop_eq_dfs entries pre [] maxFiles (by simpa using h)

/-- Every path the walker can produce is a path of a spec-non-excluded file
(the converse fails: the walker also drops plain files named `.git` or
`node_modules`). -/
theorem dfsFiles_paths_sublist : ∀ (entries : Dirents) (pre : String),
    ((dfsFiles entries pre).map FileInfo.path).Sublist (specFiles entries pre)
  | .nil, _ => by simp [dfsFiles, specFiles]
  | .file name st ct rest, pre => by
    by_cases hx : excludedName name
    · simp only [dfsFiles, specFiles, if_pos hx]
      exact (dfsFiles_paths_sublist rest pre).cons _
    · simp only [dfsFiles, specFiles, if_neg hx, List.map_cons]
      exact (dfsFiles_paths_sublist rest pre).cons₂ _
  | .dir name children rest, pre => by
    by_cases hx : excludedName name
    · simp only [dfsFiles, specFiles, if_pos hx]
      exact dfsFiles_paths_sublist rest pre
    · simp only [dfsFiles, specFiles, if_neg hx, List.map_append]
      exact (dfsFiles_paths_sublist children (joinRel pre name)).append
        (dfsFiles_paths_sublist rest pre)


/-! ### Budget lemmas -/

theorem headerStr_length : headerStr.length = 37 := by decide

theorem toString_nat_le_three : ∀ n : Nat, n ≤ 100 → (toString n).length ≤ 3 := by decide

theorem fileListHeaderStr_length_le (n : Nat) : (fileListHeaderStr n).length ≤ 29 := by
  have h := toString_nat_le_three (min n MAX_FILES_TO_LIST)
    (le_trans (Nat.min_le_right _ _) (by norm_num [MAX_FILES_TO_LIST]))
  have h1 : ("File List (" : String).length = 11 := by decide
  have h2 : (" files shown):\n" : String).length = 15 := by decide
  unfold fileListHeaderStr
  rw [String.length_append, String.length_append]
  omega

/-- Every committed `- path` line keeps the counter strictly under budget. -/
theorem foldl_addLine_counted_lt (files : List FileInfo) (st : ExtractState)
    (h : st.counted < MAX_TOTAL_CONTEXT_LENGTH) :
    (files.foldl addLine st).counted < MAX_TOTAL_CONTEXT_LENGTH := by
  induction files generalizing st with
  | nil => simpa using h
  | cons f fs ih =>
    refine ih (addLine st f) ?_
    unfold addLine
    split
    · next hc => simpa using hc
    · simpa using h

/-- The file-list loop adds the same amount to the context and to the counter. -/
theorem foldl_addLine_ctx_diff (files : List FileInfo) (st : ExtractState) :
    (files.foldl addLine st).ctx.length + st.counted
      = (files.foldl addLine st).counted + st.ctx.length := by
  induction files generalizing st with
  | nil => simp; omega
  | cons f fs ih =>
    have h1 := ih (addLine st f)
    have h2 : (addLine st f).ctx.length + st.counted
        = (addLine st f).counted + st.ctx.length := by
      unfold addLine
      split
      · simp [String.length_append]
        omega
      · omega
    simp only [List.foldl_cons] at *
    omega

/-- The key-file loop never pushes the counter to the budget or beyond. -/
theorem keyLoop_counted_lt : ∀ (keys : List String) (files : List FileInfo)
    (st : ExtractState) (n : Nat), st.counted < MAX_TOTAL_CONTEXT_LENGTH →
    (keyLoop keys files st n).1.counted < MAX_TOTAL_CONTEXT_LENGTH
  | [], _, st, n, h => by simpa [keyLoop] using h
  | k :: ks, files, st, n, h => by
    simp only [keyLoop]
    split
    · simpa using h
    · match hfind : findKeyFile files k with
      | none => simpa [hfind, consOutcome] using keyLoop_counted_lt ks files st n h
      | some f =>
        match hstat : f.stat with
        | none => simpa [hfind, hstat, consOutcome] using keyLoop_counted_lt ks files st n h
        | some s =>
          simp only [hfind, hstat]
          split
          · match hct : f.content with
            | none => simpa [hct, consOutcome] using keyLoop_counted_lt ks files st n h
            | some c =>
              simp only [hct]
              split
              · next hfits =>
                simpa [consOutcome] using
                  keyLoop_counted_lt ks files _ (n + 1) (by simpa using hfits)
              · simpa using h
          · simpa [consOutcome] using keyLoop_counted_lt ks files st n h

/-- The key-file loop adds the same amount to the context and to the counter. -/
theorem keyLoop_ctx_diff : ∀ (keys : List String) (files : List FileInfo)
    (st : ExtractState) (n : Nat),
    (keyLoop keys files st n).1.ctx.length + st.counted
      = (keyLoop keys files st n).1.counted + st.ctx.length
  | [], _, st, n => by simp [keyLoop]; omega
  | k :: ks, files, st, n => by
    simp only [keyLoop]
    split
    · simp; omega
    · match hfind : findKeyFile files k with
      | none =>
        simp only [hfind, consOutcome]
        exact keyLoop_ctx_diff ks files st n
      | some f =>
        match hstat : f.stat with
        | none =>
          simp only [hfind, hstat, consOutcome]
          exact keyLoop_ctx_diff ks files st n
        | some s =>
          simp only [hfind, hstat]
          split
          · match hct : f.content with
            | none =>
              simp only [hct, consOutcome]
              exact keyLoop_ctx_diff ks files st n
            | some c =>
              simp only [hct]
              split
              · have hih := keyLoop_ctx_diff ks files
                  ⟨st.ctx ++ sectionFor st f c,
                   st.counted + (sectionFor st f c).length⟩ (n + 1)
                simp only [consOutcome, String.length_append] at hih ⊢
                omega
              · simp; omega
          · simp only [consOutcome]
            exact keyLoop_ctx_diff ks files st n

theorem keyLoop_trace_length : ∀ (keys : List String) (files : List FileInfo)
    (st : ExtractState) (n : Nat), (keyLoop keys files st n).2.2.length = keys.length
  | [], _, st, n => by simp [keyLoop]
  | k :: ks, files, st, n => by
    simp only [keyLoop]
    split
    · simp
    · match hfind : findKeyFile files k with
      | none => simpa [hfind, consOutcome] using keyLoop_trace_length ks files st n
      | some f =>
        match hstat : f.stat with
        | none => simpa [hfind, hstat, consOutcome] using keyLoop_trace_length ks files st n
        | some s =>
          simp only [hfind, hstat]
          split
          · match hct : f.content with
            | none => simpa [hct, consOutcome] using keyLoop_trace_length ks files st n
            | some c =>
              simp only [hct]
              split
              · simpa [consOutcome] using keyLoop_trace_length ks files _ (n + 1)
              · simp
          · simpa [consOutcome] using keyLoop_trace_length ks files st n

/-- The trace produced by the key-file loop is well-shaped. -/
theorem keyLoop_traceOK : ∀ (keys : List String) (files : List FileInfo)
    (st : ExtractState) (n : Nat), TraceOK (keyLoop keys files st n).2.2
  | [], _, st, n => by simpa [keyLoop] using TraceOK.nil
  | k :: ks, files, st, n => by
    simp only [keyLoop]
    split
    · exact TraceOK.brk _ _ (Or.inr rfl) (by simp)
    · match hfind : findKeyFile files k with
      | none =>
        simp only [hfind, consOutcome]
        exact TraceOK.step _ _ (by simp) (keyLoop_traceOK ks files st n)
      | some f =>
        match hstat : f.stat with
        | none =>
          simp only [hfind, hstat, consOutcome]
          exact TraceOK.step _ _ (by simp) (keyLoop_traceOK ks files st n)
        | some s =>
          simp only [hfind, hstat]
          split
          · match hct : f.content with
            | none =>
              simp only [hct, consOutcome]
              exact TraceOK.step _ _ (by simp) (keyLoop_traceOK ks files st n)
            | some c =>
              simp only [hct]
              split
              · simp only [consOutcome]
                exact TraceOK.step _ _ (by simp) (keyLoop_traceOK ks files _ (n + 1))
              · exact TraceOK.brk _ _ (Or.inl rfl) (by simp)
          · simp only [consOutcome]
            exact TraceOK.step _ _ (by simp) (keyLoop_traceOK ks files st n)

/-! ### Trace index lemmas -/

theorem traceOK_break_notReached {tr : List KeyOutcome} (h : TraceOK tr) :
    ∀ i j : Nat, (tr.get? i = some KeyOutcome.budgetBreak ∨
      tr.get? i = some KeyOutcome.capBreak) → i < j → j < tr.length →
      tr.get? j = some KeyOutcome.notReached := by
  induction h with
  | nil => intro i j hi _ _; rcases hi with hi | hi <;> simp at hi
  | step o tr ho h ih =>
    intro i j hi hij hj
    match i, j with
    | 0, _ =>
      rcases hi with hi | hi <;> simp at hi <;>
        rcases ho with h' | h' | h' | h' <;> simp [h'] at hi
    | i' + 1, j' + 1 =>
      simp only [List.get?_cons_succ] at hi ⊢
      exact ih i' j' hi (by omega) (by simpa using hj)
  | brk o rest ho hrest =>
    intro i j hi hij hj
    match i, j with
    | 0, j' + 1 =>
      simp only [List.get?_cons_succ]
      have hj' : j' < rest.length := by simpa using hj
      match hx : rest.get? j' with
      | Option.none =>
        rw [List.get?_eq_none] at hx
        omega
      | some x =>
        exact congrArg some (hrest x (List.get?_mem hx))
    | i' + 1, j' + 1 =>
      simp only [List.get?_cons_succ] at hi
      exfalso
      rcases hi with hi | hi <;>
        exact absurd (hrest _ (List.get?_mem hi)) (by simp)

theorem traceOK_included_processed {tr : List KeyOutcome} (h : TraceOK tr) :
    ∀ i j : Nat, i < j → tr.get? j = some KeyOutcome.included →
      ∃ oi, tr.get? i = some oi ∧ (oi = KeyOutcome.noMatch ∨ oi = KeyOutcome.statSkip ∨
        oi = KeyOutcome.readErr ∨ oi = KeyOutcome.included) := by
  induction h with
  | nil => intro i j _ hj; simp at hj
  | step o tr ho h ih =>
    intro i j hij hj
    match i, j with
    | 0, _ => exact ⟨o, rfl, ho⟩
    | i' + 1, j' + 1 =>
      simp only [List.get?_cons_succ] at hj ⊢
      exact ih i' j' (by omega) hj
  | brk o rest ho hrest =>
    intro i j hij hj
    match j with
    | j' + 1 =>
      simp only [List.get?_cons_succ] at hj
      exact absurd (hrest _ (List.get?_mem hj)) (by simp)

/-! ### Extraction-level lemmas -/

theorem extractCore_allFiles (files : List FileInfo) :
    (extractCore files).allFiles = files := by
  simp [extractCore]

theorem extractCore_trace (files : List FileInfo) :
    (extractCore files).trace
      = (keyLoop keyFiles files (omittedStage files (fileListStage files)) 0).2.2 := by
  simp [extractCore]

theorem extract_allFiles_le (tree : Dirents) :
    (extract tree).allFiles.length ≤ MAX_FILES_TO_LIST := by
  rw [extract, extractCore_allFiles]
  exact listFiles_length_le tree "" [] MAX_FILES_TO_LIST (by simp)

/-- The omitted-files summary line of route.ts lines 98-100 is dead code: the
walker caps the listing at `MAX_FILES_TO_LIST`, so `allFiles.length` can never
exceed the cap and the summary line is never appended, whatever the tree. -/
theorem extract_omittedNote_false (tree : Dirents) :
    (extract tree).omittedNote = false := by
  have h := listFiles_length_le tree "" [] MAX_FILES_TO_LIST (by simp)
  rw [extract]
  simp only [extractCore]
  rw [decide_eq_false_iff_not]
  omega

theorem fileListStage_counted_lt (files : List FileInfo) :
    (fileListStage files).counted < MAX_TOTAL_CONTEXT_LENGTH := by
  unfold fileListStage
  refine foldl_addLine_counted_lt _ _ ?_
  norm_num [headerStr_length, MAX_TOTAL_CONTEXT_LENGTH]

theorem fileListStage_ctx_len_le (files : List FileInfo) :
    (fileListStage files).ctx.length ≤ (fileListStage files).counted + 29 := by
  have hfl := fileListHeaderStr_length_le files.length
  have hctx0 : (headerStr ++ fileListHeaderStr files.length).length
      = 37 + (fileListHeaderStr files.length).length := by
    rw [String.length_append, headerStr_length]
  unfold fileListStage
  rw [headerStr_length]
  have hd := foldl_addLine_ctx_diff (files.take MAX_FILES_TO_LIST)
    ⟨headerStr ++ fileListHeaderStr files.length, 37⟩
  dsimp only at hd
  rw [hctx0] at hd
  omega

theorem omittedStage_of_le (files : List FileInfo) (st : ExtractState)
    (h : ¬ files.length > MAX_FILES_TO_LIST) :
    omittedStage files st = ⟨st.ctx ++ "\n" ++ "Key File Contents:\n", st.counted⟩ := by
  unfold omittedStage
  rw [if_neg h]

/-- Amended global-budget bound: the extracted context can exceed the budget
`M = MAX_TOTAL_CONTEXT_LENGTH` only through the uncounted header/summary
lines, and by at most 82 characters: the counted portion stays at most
`M - 1`, the file-list header adds at most 29 uncounted characters, the blank
separator and `Key File Contents:` header add 20, and the placeholder adds 34. -/
theorem extractCore_ctx_le (files : List FileInfo)
    (hle : files.length ≤ MAX_FILES_TO_LIST) :
    (extractCore files).ctx.length ≤ MAX_TOTAL_CONTEXT_LENGTH + 82 := by
  have hnot : ¬ files.length > MAX_FILES_TO_LIST := by omega
  have h1 := fileListStage_counted_lt files
  have h2 := fileListStage_ctx_len_le files
  have hom := omittedStage_of_le files (fileListStage files) hnot
  have h3 := keyLoop_counted_lt keyFiles files (omittedStage files (fileListStage files)) 0
    (by rw [hom]; exact h1)
  have h4 := keyLoop_ctx_diff keyFiles files (omittedStage files (fileListStage files)) 0
  have hl1 : ("\n" : String).length = 1 := by decide
  have hl2 : ("Key File Contents:\n" : String).length = 19 := by decide
  have hl3 : ("(No key files identified or read)\n" : String).length = 34 := by decide
  have hst2ctx : (omittedStage files (fileListStage files)).ctx.length
      = (fileListStage files).ctx.length + 20 := by
    rw [hom]
    simp only [String.length_append, hl1, hl2]
  have hst2cnt : (omittedStage files (fileListStage files)).counted
      = (fileListStage files).counted := by
    rw [hom]
  simp only [extractCore]
  split
  · rw [String.length_append, hl3]
    omega
  · omega


/-! ### The C1 counterexample, computed symbolically -/

theorem isPrefixOf_self_append (x y : List Char) : x.isPrefixOf (x ++ y) = true := by
  rw [List.isPrefixOf_iff_prefix]
  exact List.prefix_append x y

theorem strEndsWith_mk_append (l p : List Char) :
    strEndsWith ⟨l ++ p⟩ ⟨p⟩ = true := by
  show List.isSuffixOf p (l ++ p) = true
  unfold List.isSuffixOf
  rw [List.reverse_append]
  exact isPrefixOf_self_append _ _

theorem cex1Name_length : cex1Name.length = 14900 := by
  unfold cex1Name
  rw [String.length_append]
  have h1 : (String.mk (List.replicate 14888 'a')).length = 14888 := by
    show (List.replicate 14888 'a').length = 14888
    exact List.length_replicate _ _
  have h2 : ("package.json" : String).length = 12 := by decide
  omega

theorem cex1_toLower : strToLower cex1Name
    = String.mk (List.replicate 14888 'a' ++ ("package.json" : String).data) := by
  show String.mk ((List.replicate 14888 'a'
    ++ ("package.json" : String).data).map Char.toLower) = _
  rw [List.map_append, List.map_replicate]
  have h1 : Char.toLower 'a' = 'a' := by decide
  have h2 : ("package.json" : String).data.map Char.toLower
      = ("package.json" : String).data := by decide
  rw [h1, h2]

theorem cex1_match : strEndsWith (strToLower cex1Name) (strToLower "package.json") = true := by
  rw [cex1_toLower]
  have h : strToLower "package.json" = "package.json" := by decide
  rw [h]
  exact strEndsWith_mk_append _ _

theorem cex1_find : findKeyFile [cex1File] "package.json" = some cex1File := by
  unfold findKeyFile
  rw [List.find?_cons_of_pos]
  show strEndsWith (strToLower cex1File.path) (strToLower "package.json") = true
  exact cex1_match

theorem cex1_line_length : ("- " ++ cex1Name ++ "\n").length = 14903 := by
  rw [String.length_append, String.length_append, cex1Name_length]
  decide

theorem cex1_st1 : fileListStage [cex1File]
    = ⟨(headerStr ++ fileListHeaderStr 1) ++ ("- " ++ cex1Name ++ "\n"), 14940⟩ := by
  have hp : cex1File.path = cex1Name := rfl
  have hcond : headerStr.length + ("- " ++ cex1File.path ++ "\n").length
      < MAX_TOTAL_CONTEXT_LENGTH := by
    rw [hp, headerStr_length, cex1_line_length]
    norm_num [MAX_TOTAL_CONTEXT_LENGTH]
  unfold fileListStage
  rw [show List.take MAX_FILES_TO_LIST [cex1File] = [cex1File] from rfl]
  simp only [List.foldl_cons, List.foldl_nil, List.length_singleton]
  unfold addLine
  dsimp only
  rw [if_pos hcond, hp, headerStr_length, cex1_line_length]

theorem cex1_st2 : omittedStage [cex1File] (fileListStage [cex1File])
    = ⟨(((headerStr ++ fileListHeaderStr 1) ++ ("- " ++ cex1Name ++ "\n")) ++ "\n")
        ++ "Key File Contents:\n", 14940⟩ := by
  rw [omittedStage_of_le _ _ (by norm_num [MAX_FILES_TO_LIST]), cex1_st1]

theorem cex1_sect_len (st : ExtractState) (h : st.counted = 14940) :
    (sectionFor st cex1File "x").length = 14921 := by
  unfold sectionFor wrapSection
  rw [h]
  have hs : jsSlice "x" ((MAX_TOTAL_CONTEXT_LENGTH : Int) - ((14940 : Nat) : Int) - 100)
      = "" := by decide
  rw [hs]
  have hp : cex1File.path = cex1Name := rfl
  rw [hp, String.length_append, String.length_append, String.length_append,
    String.length_append, cex1Name_length]
  decide

theorem cex1_keyLoop :
    (keyLoop keyFiles [cex1File] (omittedStage [cex1File] (fileListStage [cex1File])) 0).1
        = omittedStage [cex1File] (fileListStage [cex1File])
      ∧ (keyLoop keyFiles [cex1File]
          (omittedStage [cex1File] (fileListStage [cex1File])) 0).2.1 = 0 := by
  rw [cex1_st2]
  have hsect := cex1_sect_len
    ⟨(((headerStr ++ fileListHeaderStr 1) ++ ("- " ++ cex1Name ++ "\n")) ++ "\n")
        ++ "Key File Contents:\n", 14940⟩ rfl
  have hnocap : ¬ (0 ≥ MAX_FILE_CONTENT_TO_INCLUDE) := by
    norm_num [MAX_FILE_CONTENT_TO_INCLUDE]
  have hstat : cex1File.stat = some ⟨true, 1⟩ := rfl
  have hct : cex1File.content = some "x" := rfl
  unfold keyFiles
  rw [keyLoop]
  rw [if_neg hnocap, cex1_find]
  dsimp only
  rw [hstat]
  dsimp only
  rw [if_pos (⟨rfl, by decide⟩ : true = true ∧ (1 : Nat) ≤ MAX_FILE_READ_SIZE_BYTES)]
  rw [hct]
  dsimp only
  rw [hsect]
  rw [if_neg (by norm_num [MAX_TOTAL_CONTEXT_LENGTH])]
  exact ⟨rfl, rfl⟩

theorem cex1_extract_len : (extract cex1Tree).ctx.length = 15021 := by
  have hlist : listFiles cex1Tree "" [] MAX_FILES_TO_LIST = [cex1File] := by
    unfold listFiles cex1Tree
    rw [if_neg (by norm_num [MAX_FILES_TO_LIST])]
    rw [listLoop]
    rw [if_neg (by rw [show excludedName cex1Name = false from by decide]; simp)]
    rw [if_neg (by norm_num [MAX_FILES_TO_LIST])]
    rw [listLoop]
    rfl
  rw [extract, hlist]
  simp only [extractCore]
  rw [cex1_keyLoop.1]
  rw [if_pos cex1_keyLoop.2]
  rw [cex1_st2]
  show ((((((headerStr ++ fileListHeaderStr 1) ++ ("- " ++ cex1Name ++ "\n")) ++ "\n")
    ++ "Key File Contents:\n")) ++ "(No key files identified or read)\n").length = 15021
  rw [String.length_append, String.length_append, String.length_append,
    String.length_append, String.length_append, headerStr_length, cex1_line_length]
  decide


/-! ### Claim theorems -/

theorem extract_traceOK (tree : Dirents) : TraceOK (extract tree).trace := by
  rw [extract, extractCore_trace]
  exact keyLoop_traceOK _ _ _ _

/-- C1 counterexample: a repository containing a single file whose 14900-char
name ends in `package.json` yields an Extracted Context of 15021 characters,
exceeding the global budget M = 15000: the `File List (...)` header, the blank
separator, the `Key File Contents:` header and the
`(No key files identified or read)` placeholder are appended without any
budget check, while `totalContextLength` only reaches 14940. -/
theorem context_budget_counterexample :
    MAX_TOTAL_CONTEXT_LENGTH < (extract cex1Tree).ctx.length := by
  rw [cex1_extract_len]
  norm_num [MAX_TOTAL_CONTEXT_LENGTH]

/-- C1 (amended): for every input tree the Extracted Context length is at most
M + 82 = 15082.  Every budget-checked append (file-list lines, key-file
sections) keeps the counted total at most M − 1 = 14999; the uncounted
file-list header (≤ 29 chars), blank separator (1), `Key File Contents:`
header (19) and placeholder (34) can add at most 83 more characters. -/
theorem context_budget_amended (tree : Dirents) :
    (extract tree).ctx.length ≤ MAX_TOTAL_CONTEXT_LENGTH + 82 := by
  rw [extract]
  exact extractCore_ctx_le _ (listFiles_length_le _ _ _ _ (by simp))

/-- C2 evaluation at the failing input: a repository of 101 files (one more
than the cap).  The File Listing does have exactly the cap's 100 entries, but
the Extracted Context contains NO omitted-count summary line: the walker stops
at 100 entries, so the `allFiles.length > MAX_FILES_TO_LIST` guard of
route.ts line 98 is dead code and the summary line is never appended. -/
theorem omitted_note_missing_at_101_files :
    (specFiles tree101 "").length = 101 ∧
    (extract tree101).allFiles.length = 100 ∧
    (extract tree101).omittedNote = false := by
  refine ⟨by decide, by decide, ?_⟩
  exact extract_omittedNote_false tree101

/-- C3: key files are matched in the fixed priority order of `keyFiles`.  If
key `j` was included in the context then every earlier-priority key `i < j`
was fully processed (matched and included, or skipped only for lack of a
match, a failed or ineligible stat, or a read error — never because of the
budget); and if the budget break fired at key `i`, every later key `j > i`
was not reached at all, so no out-of-order inclusion can occur. -/
theorem keyfile_priority_order (tree : Dirents) (i j : Nat) (hij : i < j) :
    ((extract tree).trace.get? j = some KeyOutcome.included →
      ∃ oi, (extract tree).trace.get? i = some oi ∧
        (oi = KeyOutcome.noMatch ∨ oi = KeyOutcome.statSkip ∨
          oi = KeyOutcome.readErr ∨ oi = KeyOutcome.included)) ∧
    ((extract tree).trace.get? i = some KeyOutcome.budgetBreak →
      j < (extract tree).trace.length →
      (extract tree).trace.get? j = some KeyOutcome.notReached) := by
  have hok : TraceOK (extract tree).trace := extract_traceOK tree
  exact ⟨fun hj => traceOK_included_processed hok i j hij hj,
         fun hi hj => traceOK_break_notReached hok i j (Or.inl hi) hij hj⟩

/-- C3 witness: in a repository whose only key file is a `Makefile`
(priority index 7), index 7 is included and index 0 (`package.json`) was
processed (with outcome `noMatch`). -/
theorem keyfile_priority_order_witness :
    (0 : Nat) < 7 ∧ (extract wtreeMakefile).trace.get? 7 = some KeyOutcome.included ∧
    ∃ oi, (extract wtreeMakefile).trace.get? 0 = some oi ∧
      (oi = KeyOutcome.noMatch ∨ oi = KeyOutcome.statSkip ∨
        oi = KeyOutcome.readErr ∨ oi = KeyOutcome.included) :=
  ⟨by decide, by decide,
   (keyfile_priority_order wtreeMakefile 0 7 (by decide)).1 (by decide)⟩

/-- C5 counterexample: a repository containing a REGULAR FILE named `.git`
(plus one ordinary file), with 2 < 100 files.  The file `.git` lies inside no
version-control-metadata directory, so by the claim it is non-excluded and
should be listed; but the walker checks the name before the directory test
(route.ts line 36) and drops it, so the listing is not one entry per
non-excluded file. -/
theorem walker_drops_git_named_file :
    (specFiles cex5Tree "").length < MAX_FILES_TO_LIST ∧
    (extract cex5Tree).allFiles.map FileInfo.path ≠ specFiles cex5Tree "" := by
  exact ⟨by decide, by decide⟩

/-- C5 (amended): for every repository with fewer walker-visible files than
the cap — where an entry is excluded when its own name, or the name of any
ancestor directory, is `.git` or `node_modules` (so a plain FILE so named is
also dropped) — the File Listing is exactly the depth-first enumeration of
the non-excluded files, one entry each; in particular every listed path is
the path of a file lying inside no `.git` or `node_modules` directory. -/
theorem listing_below_cap_amended (tree : Dirents)
    (h : (dfsFiles tree "").length < MAX_FILES_TO_LIST) :
    (extract tree).allFiles = dfsFiles tree "" ∧
    ∀ p ∈ (extract tree).allFiles.map FileInfo.path, p ∈ specFiles tree "" := by
  have heq : (extract tree).allFiles = dfsFiles tree "" := by
    rw [extract, extractCore_allFiles]
    exact listFiles_eq_dfs tree "" MAX_FILES_TO_LIST h
  refine ⟨heq, ?_⟩
  intro p hp
  rw [heq] at hp
  exact (dfsFiles_paths_sublist tree "").subset hp

/-- C5 witness: a mixed tree (a `src` subdirectory, a `node_modules` subtree,
a top-level README) is listed exactly as its non-excluded depth-first files. -/
theorem listing_below_cap_witness :
    (dfsFiles w5Tree "").length < MAX_FILES_TO_LIST ∧
    ((extract w5Tree).allFiles = dfsFiles w5Tree "" ∧
      ∀ p ∈ (extract w5Tree).allFiles.map FileInfo.path, p ∈ specFiles w5Tree "") :=
  ⟨by decide, listing_below_cap_amended w5Tree (by decide)⟩

/-- C6: a matched key file that is not a regular file or exceeds the 50 KB
per-file cap (`statSkip`), or whose stat/read throws (`readErr`), is never
read into the Extracted Context, and the loop continues with the remaining
keys from an UNCHANGED state: the step is exactly the loop on the remaining
keys with this key's skip outcome prepended. -/
theorem oversized_keyfile_skipped (k : String) (ks : List String)
    (files : List FileInfo) (st : ExtractState) (n : Nat) (f : FileInfo)
    (hn : n < MAX_FILE_CONTENT_TO_INCLUDE)
    (hf : findKeyFile files k = some f)
    (hskip : f.stat = Option.none ∨
      (∃ s, f.stat = some s ∧ ¬(s.isFile = true ∧ s.size ≤ MAX_FILE_READ_SIZE_BYTES)) ∨
      f.content = Option.none) :
    ∃ o, (o = KeyOutcome.statSkip ∨ o = KeyOutcome.readErr) ∧
      keyLoop (k :: ks) files st n = consOutcome o (keyLoop ks files st n) := by
  rw [keyLoop]
  rw [if_neg (by omega), hf]
  dsimp only
  rcases hskip with h | ⟨s, hs, hcond⟩ | h
  · rw [h]
    exact ⟨KeyOutcome.readErr, Or.inr rfl, rfl⟩
  · rw [hs]
    dsimp only
    rw [if_neg hcond]
    exact ⟨KeyOutcome.statSkip, Or.inl rfl, rfl⟩
  · match hstat : f.stat with
    | Option.none =>
      exact ⟨KeyOutcome.readErr, Or.inr rfl, rfl⟩
    | some s =>
      dsimp only
      by_cases hc : s.isFile = true ∧ s.size ≤ MAX_FILE_READ_SIZE_BYTES
      · rw [if_pos hc, h]
        exact ⟨KeyOutcome.readErr, Or.inr rfl, rfl⟩
      · rw [if_neg hc]
        exact ⟨KeyOutcome.statSkip, Or.inl rfl, rfl⟩

/-- C6 witness: a 999999-byte `package.json` is skipped and the loop proceeds
to the remaining key (`README.md`) with unchanged state and count. -/
theorem oversized_keyfile_skipped_witness :
    (0 : Nat) < MAX_FILE_CONTENT_TO_INCLUDE ∧
    findKeyFile [w6File] "package.json" = some w6File ∧
    ∃ o, (o = KeyOutcome.statSkip ∨ o = KeyOutcome.readErr) ∧
      keyLoop ["package.json", "README.md"] [w6File] ⟨"", 0⟩ 0
        = consOutcome o (keyLoop ["README.md"] [w6File] ⟨"", 0⟩ 0) :=
  ⟨by decide, by decide,
   oversized_keyfile_skipped "package.json" ["README.md"] [w6File] ⟨"", 0⟩ 0 w6File
     (by decide) (by decide)
     (Or.inr (Or.inl ⟨⟨true, 999999⟩, rfl, by decide⟩))⟩


theorem apiKeyOk_rmFails (o : Oracle) (b : Bool) :
    apiKeyOk { o with rmFails := b } = apiKeyOk o := by
  cases o
  rfl

theorem tryBlock_rmFails (o : Oracle) (b : Bool) :
    tryBlock { o with rmFails := b } = tryBlock o := by
  cases o
  rfl

/-- C4: on every exit path of the handler, once the temporary directory has
been created the `finally` block removes it (`fs.rm` is invoked exactly when
`tempDir` was set); the directory is left behind only when that removal
itself fails; and a removal failure is only logged — the handler's response
is identical whatever `fs.rm` does, so a cleanup failure is never re-raised
over the prior result or error. -/
theorem cleanup_on_every_exit (o : Oracle) :
    ((POST o).2.rmCalled = (POST o).2.tempDirCreated) ∧
    ((POST o).2.tempDirLeftBehind = ((POST o).2.tempDirCreated && o.rmFails)) ∧
    (∀ b, (POST { o with rmFails := b }).1 = (POST o).1) := by
  refine ⟨?_, ?_, ?_⟩
  · unfold POST
    split
    · rfl
    · rcases h : tryBlock o with ⟨r, s⟩
      cases hs : s.tempDir <;> simp [h, hs]
  · unfold POST
    split
    · rfl
    · rcases h : tryBlock o with ⟨r, s⟩
      cases hs : s.tempDir <;> simp [h, hs]
  · intro b
    unfold POST
    rw [apiKeyOk_rmFails, tryBlock_rmFails]
    split
    · rfl
    · rcases h : tryBlock o with ⟨r, s⟩
      cases hs : s.tempDir <;> simp [h, hs]

/-- C7 counterexample: the body `{ repoUrl: "https://" }` — a bare scheme
prefix, not a valid URL — is NOT rejected with 400: the handler proceeds,
creates the temporary directory and attempts the clone (here failing, so the
response is a 500 clone error), because validation only checks the
`http://`/`https://` prefix. -/
theorem prefix_only_url_accepted_counterexample :
    (POST o7cex).1.status = 500 ∧
    (POST o7cex).2.tempDirCreated = true ∧
    (POST o7cex).2.cloneAttempted = true := by
  exact ⟨by decide, by decide, by decide⟩

/-- C7 (amended): for every request whose JSON body destructures (is not
null/undefined) and whose `repoUrl` is missing, non-string, falsy, or a
string not starting with `http://` or `https://`, the handler returns
HTTP 400 with an error field and performs no side effects: no temporary
directory is created, no clone is attempted, no cleanup runs.  (A string
that merely starts with one of those prefixes — e.g. `"https://"` alone —
passes validation even though it is not a valid URL.) -/
theorem invalid_url_rejected_amended (o : Oracle) (body u : JsValue)
    (h1 : apiKeyOk o = true) (h2 : o.bodyResult = .ok body)
    (h3 : getProp body "repoUrl" = .ok u) (h4 : invalidRepoUrl u = true) :
    (POST o).1 = ⟨400, JsonOut.error "Invalid repository URL provided."⟩ ∧
    (POST o).2.tempDirCreated = false ∧
    (POST o).2.cloneAttempted = false ∧
    (POST o).2.rmCalled = false := by
  have htb : tryBlock o
      = (.ok ⟨400, JsonOut.error "Invalid repository URL provided."⟩, TryState.init) := by
    unfold tryBlock
    rw [h2]
    dsimp only
    rw [h3]
    dsimp only
    rw [if_pos h4]
  unfold POST
  rw [if_neg (by simp [h1]), htb]
  exact ⟨rfl, rfl, rfl, rfl⟩

/-- C7 witness: a body with no `repoUrl` property yields 400 and no effects. -/
theorem invalid_url_rejected_witness :
    apiKeyOk o7w = true ∧
    ((POST o7w).1 = ⟨400, JsonOut.error "Invalid repository URL provided."⟩ ∧
     (POST o7w).2.tempDirCreated = false ∧
     (POST o7w).2.cloneAttempted = false ∧
     (POST o7w).2.rmCalled = false) :=
  ⟨by decide,
   invalid_url_rejected_amended o7w (.obj [("other", .num 1)]) .undefined
     (by decide) rfl rfl (by decide)⟩

/-- C8: whenever the generative call itself returns (does not throw) a
response that is absent or carries no candidate (`respOk` false: empty,
filtered, or missing-candidate), the handler RETURNS a 500 error response —
the try block produces `.ok`, no exception path is taken — whose error
message is the line-188 format string, embedding the provider's
`promptFeedback` serialization verbatim as a suffix and the first candidate's
non-empty finish reason verbatim when one exists. -/
theorem generation_failure_returned (o : Oracle) (body u : JsValue) (dir : String)
    (resp : GeminiResponse)
    (h1 : apiKeyOk o = true) (h2 : o.bodyResult = .ok body)
    (h3 : getProp body "repoUrl" = .ok u) (h4 : invalidRepoUrl u = false)
    (h5 : o.mkdtempResult = .ok dir) (h6 : o.cloneResult = .ok ())
    (h7 : o.walkError = Option.none) (h8 : o.geminiResult = .ok resp)
    (h9 : respOk resp = false) :
    (tryBlock o).1 = .ok ⟨500, JsonOut.error (geminiFailMsg resp)⟩ ∧
    (POST o).1 = ⟨500, JsonOut.error (geminiFailMsg resp)⟩ ∧
    (∀ fb, resp.bind RespObj.promptFeedback = some fb →
      ∃ a, geminiFailMsg resp = a ++ fb) ∧
    (∀ r, finishReason0 resp = some r → r ≠ "" →
      ∃ a b, geminiFailMsg resp = a ++ r ++ b) := by
  have htb : tryBlock o = (.ok ⟨500, JsonOut.error (geminiFailMsg resp)⟩,
      ⟨some dir, true, some (extract o.tree).ctx.length⟩) := by
    unfold tryBlock
    rw [h2]
    dsimp only
    rw [h3]
    dsimp only
    rw [if_neg (by simp [h4]), h5]
    dsimp only
    rw [h6]
    dsimp only
    rw [h7]
    dsimp only
    rw [h8]
    dsimp only
    rw [if_neg (by simp [h9])]
  refine ⟨by rw [htb], ?_, ?_, ?_⟩
  · unfold POST
    rw [if_neg (by simp [h1]), htb]
  · intro fb hfb
    refine ⟨"Failed to generate content. Reason: " ++ jsOrUnknown (finishReason0 resp)
      ++ ". Feedback: ", ?_⟩
    unfold geminiFailMsg
    rw [hfb]
    rfl
  · intro r hr hne
    refine ⟨"Failed to generate content. Reason: ",
      ". Feedback: " ++ jsonStringifyOpt (resp.bind RespObj.promptFeedback), ?_⟩
    unfold geminiFailMsg jsOrUnknown
    rw [hr]
    dsimp only
    rw [if_neg (by simpa using hne)]
    simp only [String.append_assoc]

/-- C8 witness: a mocked response with an empty candidate list and feedback
metadata produces the 500 error response carrying that feedback. -/
theorem generation_failure_returned_witness :
    respOk (some o8resp) = false ∧
    (POST o8w).1 = ⟨500, JsonOut.error (geminiFailMsg (some o8resp))⟩ ∧
    (∃ a, geminiFailMsg (some o8resp) = a ++ "safety feedback metadata") :=
  ⟨by decide,
   (generation_failure_returned o8w (.obj [("repoUrl", .str "https://example.com/repo.git")])
     (.str "https://example.com/repo.git") "/tmp/gemini-readme-w8" (some o8resp)
     (by decide) rfl rfl (by decide) rfl rfl rfl rfl (by decide)).2.1,
   (generation_failure_returned o8w (.obj [("repoUrl", .str "https://example.com/repo.git")])
     (.str "https://example.com/repo.git") "/tmp/gemini-readme-w8" (some o8resp)
     (by decide) rfl rfl (by decide) rfl rfl rfl rfl (by decide)).2.2.1
     "safety feedback metadata" rfl⟩

/-- C9: if `GOOGLE_API_KEY` is absent, every POST request returns 500 with the
configuration error immediately: no temporary directory is created, no clone
is attempted, no cleanup runs. -/
theorem missing_credential_rejected (o : Oracle) (h : o.apiKey = Option.none) :
    POST o = (⟨500, JsonOut.error "API Key not configured."⟩, WorldLog.none) := by
  unfold POST
  rw [if_pos (by simp [apiKeyOk, h])]

/-- C9 witness. -/
theorem missing_credential_rejected_witness :
    POST o9w = (⟨500, JsonOut.error "API Key not configured."⟩, WorldLog.none) :=
  missing_credential_rejected o9w rfl

/-- C10: the repoUrl validation accepts exactly the strings that start with
`http://` or `https://` — no further URL well-formedness check exists.  Under
a parsed body and a successful `mkdtemp`, every accepted value leads to a
clone attempt, and every other value is rejected with HTTP 400 and no clone. -/
theorem url_validation_prefix_only :
    (∀ v : JsValue, invalidRepoUrl v = false ↔
      ∃ s, v = JsValue.str s ∧
        (strStartsWith s "http://" = true ∨ strStartsWith s "https://" = true)) ∧
    (∀ (o : Oracle) (body u : JsValue) (dir : String),
      apiKeyOk o = true → o.bodyResult = .ok body →
      getProp body "repoUrl" = .ok u → o.mkdtempResult = .ok dir →
      ((invalidRepoUrl u = false → (POST o).2.cloneAttempted = true) ∧
       (invalidRepoUrl u = true → (POST o).1.status = 400 ∧
         (POST o).2.cloneAttempted = false))) := by
  constructor
  · intro v
    cases v with
    | str s =>
      simp only [invalidRepoUrl, jsTruthy, isJsString]
      constructor
      · intro h
        refine ⟨s, rfl, ?_⟩
        by_cases hh : strStartsWith s "http://" = true
        · exact Or.inl hh
        · by_cases hs : strStartsWith s "https://" = true
          · exact Or.inr hs
          · simp [hh, hs] at h
      · rintro ⟨t, ht, hpre⟩
        cases ht
        have hne : s ≠ "" := by
          intro he
          subst he
          rcases hpre with h | h <;> revert h <;> decide
        simp [hne]
        rcases hpre with h | h <;> simp [h]
    | undefined => simp [invalidRepoUrl, jsTruthy, isJsString]
    | null => simp [invalidRepoUrl, jsTruthy, isJsString]
    | bool b => simp [invalidRepoUrl, jsTruthy, isJsString]
    | num n => simp [invalidRepoUrl, jsTruthy, isJsString]
    | obj props => simp [invalidRepoUrl, jsTruthy, isJsString]
  · intro o body u dir h1 h2 h3 h4
    constructor
    · intro hv
      unfold POST
      rw [if_neg (by simp [h1])]
      have htb2 : (tryBlock o).2.cloneAttempted = true := by
        unfold tryBlock
        rw [h2]
        dsimp only
        rw [h3]
        dsimp only
        rw [if_neg (by simp [hv]), h4]
        dsimp only
        cases h6 : o.cloneResult with
        | error e => rfl
        | ok u' =>
          cases u'
          dsimp only
          cases h7 : o.walkError with
          | none =>
            dsimp only
            cases h8 : o.geminiResult with
            | error e => rfl
            | ok resp =>
              dsimp only
              split <;> rfl
          | some e => rfl
      rcases h : tryBlock o with ⟨r, s⟩
      rw [h] at htb2
      cases hs : s.tempDir <;> simp [hs] <;> exact htb2
    · intro hv
      have htb : tryBlock o
          = (.ok ⟨400, JsonOut.error "Invalid repository URL provided."⟩, TryState.init) := by
        unfold tryBlock
        rw [h2]
        dsimp only
        rw [h3]
        dsimp only
        rw [if_pos hv]
      unfold POST
      rw [if_neg (by simp [h1]), htb]
      exact ⟨rfl, rfl⟩

/-- C10 witness: the bare prefix string `"https://"` passes validation and,
with a successful `mkdtemp`, a clone is attempted. -/
theorem url_validation_prefix_only_witness :
    invalidRepoUrl (JsValue.str "https://") = false ∧
    (POST o10w).2.cloneAttempted = true :=
  ⟨by decide,
   (url_validation_prefix_only.2 o10w (.obj [("repoUrl", .str "https://")])
     (.str "https://") "/tmp/gemini-readme-w10" (by decide) rfl rfl rfl).1
     (by decide)⟩


end GenReadme
